import Mathlib

/-!
Shallow embedding of the price-monitoring service: the `PriceMonitor`
class (streaming price-update dispatch, safety-net sweep of expired
events, the `processingEvents` in-flight guard and the round-robin key
selection), the `PythClient` class (subscription set and reconnect
backoff) and the `DatabaseClient` persistence layer, together with
proofs of the specified properties.
-/

namespace MarketChecker

/-- The `ComparisonOperator` enum of `PriceMonitor.ts` (`LT`, `GT`, `EQ`). -/
inductive ComparisonOperator where
  | LT
  | GT
  | EQ
deriving DecidableEq

/-- Persisted event status values used by `DatabaseClient` (`OPEN`,
`RESOLVING`, `RESOLVED`). -/
inductive EventStatus where
  | OPEN
  | RESOLVING
  | RESOLVED
deriving DecidableEq

/-- A winning outcome passed to `resolveEventViaContract` (`'YES' | 'NO'`). -/
inductive Outcome where
  | YES
  | NO
deriving DecidableEq

/-- One row of the `event` table as read by the monitor: `id`,
`pythFeedId` (nullable), `triggerPrice` (nullable decimal, modelled as a
rational), `operator` (nullable), `end_time` (a timestamp, modelled as an
integer) and the `autoResolve` flag used by the database queries. -/
structure Event where
  id : ℕ
  pythFeedId : Option String
  triggerPrice : Option ℚ
  operator : Option ComparisonOperator
  end_time : ℤ
  autoResolve : Bool
deriving DecidableEq

/-- Winning token id computed by the monitor: `event.id * 2` for `YES`,
`event.id * 2 + 1` for `NO`. -/
def winningTokenIdFor (eventId : ℕ) : Outcome → ℕ
  | .YES => eventId * 2
  | .NO => eventId * 2 + 1

/-- The price adjustment in `handlePriceUpdate`: the raw integer price is
scaled by `10 ^ expo` (division by `10 ^ |expo|` when `expo < 0`). -/
def adjustedPriceOf (price expo : ℤ) : ℚ :=
  if expo < 0 then (price : ℚ) / (10 : ℚ) ^ expo.natAbs
  else (price : ℚ) * (10 : ℚ) ^ expo.natAbs

/-- The condition check of `handlePriceUpdate` in the container
`PriceMonitor` (part_005): `conditionMet` starts `false`, is set to
`adjustedPrice >= triggerPrice` for `GT` and to
`adjustedPrice <= triggerPrice` for `LT`; no branch handles `EQ`. -/
def conditionMet (operator : ComparisonOperator) (adjustedPrice triggerPrice : ℚ) : Bool :=
  match operator with
  | .GT => decide (triggerPrice ≤ adjustedPrice)
  | .LT => decide (adjustedPrice ≤ triggerPrice)
  | .EQ => false

/-- Outcome of the guard/expiry/condition checks at the head of the
per-event loop body of `handlePriceUpdate` (lines 271-351). -/
inductive EventDecision where
  | skipMissingFields
  | skipAlreadyProcessing
  | expiredResolve
  | conditionResolve
  | noop
deriving DecidableEq

/-- The check sequence at the head of the per-event loop body of
`handlePriceUpdate`: skip when `triggerPrice` or `operator` is missing,
skip when the id is already in `processingEvents`, then the expiry check
(`event.end_time <= currentTime`, resolving `NO`), then the price
condition (resolving `YES`), otherwise no-op. -/
def classifyEvent (processing : Finset ℕ) (e : Event) (adjustedPrice : ℚ) (now : ℤ) :
    EventDecision :=
  match e.triggerPrice, e.operator with
  | some triggerPrice, some operator =>
    if e.id ∈ processing then .skipAlreadyProcessing
    else if e.end_time ≤ now then .expiredResolve
    else if conditionMet operator adjustedPrice triggerPrice then .conditionResolve
    else .noop
  | _, _ => .skipMissingFields

/-- Connection-level side effects of the `PythClient` reconnect logic:
scheduling a delayed retry (`setTimeout`) or emitting the terminal
`connectionFailed` event. -/
inductive ConnAction where
  | scheduleRetry (delayMs : ℕ)
  | emitConnectionFailed
deriving DecidableEq

/-- `PythClient.reconnectInterval` (5000 ms). -/
def reconnectInterval : ℕ := 5000

/-- `PythClient.maxReconnectAttempts` (10). -/
def maxReconnectAttempts : ℕ := 10

/-- Observable state of a `PythClient`: the `activePriceIds` tracking set,
whether an `eventSource` connection is currently open, and the
`reconnectAttempts` counter. -/
structure PythState where
  activePriceIds : Finset String
  connectionOpen : Bool
  reconnectAttempts : ℕ
deriving DecidableEq

/-- `PythClient.handleConnectionError`: when no price feeds are tracked,
do nothing; when `reconnectAttempts < maxReconnectAttempts`, schedule a
retry after `reconnectInterval * 2 ^ reconnectAttempts` ms and increment
the counter; otherwise emit the terminal `connectionFailed` event. -/
def handleConnectionError (s : PythState) : PythState × Option ConnAction :=
  if s.activePriceIds = ∅ then (s, none)
  else if s.reconnectAttempts < maxReconnectAttempts then
    ({ s with reconnectAttempts := s.reconnectAttempts + 1 },
      some (.scheduleRetry (reconnectInterval * 2 ^ s.reconnectAttempts)))
  else (s, some .emitConnectionFailed)

/-- `PythClient.subscribeToPriceFeeds`: adds the given ids to
`activePriceIds`, closes any existing connection, and opens one carrying
the whole tracking set when it is non-empty.  `connectOk` abstracts
whether `getPriceUpdatesStream` succeeds; a success resets
`reconnectAttempts` to 0, a failure is routed to
`handleConnectionError`. -/
def subscribeToPriceFeeds (s : PythState) (priceIds : List String) (connectOk : Bool) :
    PythState × Option ConnAction :=
  let active := priceIds.foldl (fun acc i => insert i acc) s.activePriceIds
  if active = ∅ then
    ({ s with activePriceIds := active, connectionOpen := false }, none)
  else if connectOk then
    ({ activePriceIds := active, connectionOpen := true, reconnectAttempts := 0 }, none)
  else
    handleConnectionError
      { s with activePriceIds := active, connectionOpen := false }

/-- `PythClient.unsubscribe`: deletes the id from `activePriceIds`; when
feeds remain it re-subscribes with the remaining set, and when none
remain it closes the connection (if open) and resets the attempt
counter. -/
def unsubscribe (s : PythState) (priceId : String) (connectOk : Bool) :
    PythState × Option ConnAction :=
  let active := s.activePriceIds.erase priceId
  if 0 < active.card then
    subscribeToPriceFeeds { s with activePriceIds := active }
      (active.sort (fun a b => a ≤ b)) connectOk
  else if s.connectionOpen then
    ({ activePriceIds := active, connectionOpen := false, reconnectAttempts := 0 }, none)
  else
    ({ s with activePriceIds := active }, none)

/-- Lookup in the `monitoringEvents` map, modelled as an association list
in insertion order (`Map.get`). -/
def mapGet (m : List (String × List Event)) (k : String) : Option (List Event) :=
  (m.find? (fun p => decide (p.1 = k))).map (fun p => p.2)

/-- `Map.set`: replaces the value of an existing key in place, otherwise
appends the binding at the end (JS `Map` insertion order). -/
def mapSet (m : List (String × List Event)) (k : String) (v : List Event) :
    List (String × List Event) :=
  if m.any (fun p => decide (p.1 = k)) then
    m.map (fun p => if p.1 = k then (k, v) else p)
  else m ++ [(k, v)]

/-- `Map.delete`: removes the binding of a key. -/
def mapDelete (m : List (String × List Event)) (k : String) :
    List (String × List Event) :=
  m.filter (fun p => decide (p.1 ≠ k))

/-- The grouping loop of `refreshEvents`: events are folded into a map
from `pythFeedId` to the list of its events, skipping rows whose
`pythFeedId` is null. -/
def groupEventsByFeed (events : List Event) : List (String × List Event) :=
  events.foldl
    (fun m e =>
      match e.pythFeedId with
      | none => m
      | some feedId => mapSet m feedId (((mapGet m feedId).getD []) ++ [e]))
    []

/-- Monitor-side mutable state of `PriceMonitor`: the `monitoringEvents`
watch registry, the `processingEvents` in-flight guard, the round-robin
`currentKeyIndex` cursor, the number of initialized contract clients and
the embedded `PythClient` state. -/
structure MonitorState where
  monitoringEvents : List (String × List Event)
  processingEvents : Finset ℕ
  currentKeyIndex : ℕ
  numClients : ℕ
  pyth : PythState
deriving DecidableEq

/-- `PriceMonitor.refreshEvents`: rebuilds `monitoringEvents` from the
fresh snapshot and subscribes to all its feed keys. -/
def refreshEvents (s : MonitorState) (events : List Event) (connectOk : Bool) :
    MonitorState :=
  let groups := groupEventsByFeed events
  let priceIds := groups.map Prod.fst
  { s with monitoringEvents := groups,
           pyth := (subscribeToPriceFeeds s.pyth priceIds connectOk).1 }

/-- `PriceMonitor.removeEventFromMonitoring`: filters the event out of its
feed bucket; when the bucket becomes empty the feed key is deleted and
`pythClient.unsubscribe` is called for it. -/
def removeEventFromMonitoring (s : MonitorState) (feedId : String) (eventId : ℕ)
    (connectOk : Bool) : MonitorState :=
  match mapGet s.monitoringEvents feedId with
  | none => s
  | some events =>
    let remainingEvents := events.filter (fun e => decide (e.id ≠ eventId))
    if 0 < remainingEvents.length then
      { s with monitoringEvents := mapSet s.monitoringEvents feedId remainingEvents }
    else
      { s with monitoringEvents := mapDelete s.monitoringEvents feedId,
               pyth := (unsubscribe s.pyth feedId connectOk).1 }

/-- `PriceMonitor.getNextKeyIndex`: returns the current cursor and
advances it modulo `contractClients.length`. -/
def getNextKeyIndex (currentKeyIndex numClients : ℕ) : ℕ × ℕ :=
  (currentKeyIndex, (currentKeyIndex + 1) % numClients)

/-- External interactions performed by a resolution attempt, in the order
they are issued: `markResolving` is `dbClient.resolveEventWithOutcome`
(status `RESOLVING` plus the tentative winning token id), `resolverInvoke`
is the entry into `resolveEventViaContract` (the market lookup and the
`updatePriceAndFulfill` contract call with the selected key),
`markResolvedWithHash` is `dbClient.updateEventResolutionHash` (status
`RESOLVED` plus the transaction hash), `notifyMatchingEngine` is the
matching-engine POST, and `batchResolve` is `dbClient.resolveEvents`
(one transaction setting the status of every listed event to
`RESOLVED`). -/
inductive Action where
  | markResolving (eventId winningTokenId : ℕ)
  | resolverInvoke (eventId : ℕ) (outcome : Outcome) (keyIndex : ℕ)
  | markResolvedWithHash (eventId : ℕ)
  | notifyMatchingEngine (eventId : ℕ)
  | batchResolve (eventIds : List ℕ)
deriving DecidableEq

/-- Persisted per-event record: `status`, `winningTokenId` and whether a
`resolutionHash` has been stored. -/
structure DbRecord where
  status : EventStatus
  winningTokenId : Option ℕ
  resolutionHash : Bool
deriving DecidableEq

/-- Database semantics of each action, following the `prisma.event.update`
calls of `DatabaseClient`: `resolveEventWithOutcome` sets status
`RESOLVING` and the winning token id, `updateEventResolutionHash` sets
status `RESOLVED` and stores the hash, `resolveEvents` sets the status of
each listed event to `RESOLVED` (and touches nothing else); the contract
call and the matching-engine POST do not write to the database. -/
def applyAction (db : ℕ → DbRecord) : Action → (ℕ → DbRecord)
  | .markResolving eventId winningTokenId => fun i =>
    if i = eventId then
      { status := .RESOLVING, winningTokenId := some winningTokenId,
        resolutionHash := (db i).resolutionHash }
    else db i
  | .markResolvedWithHash eventId => fun i =>
    if i = eventId then { db i with status := .RESOLVED, resolutionHash := true }
    else db i
  | .batchResolve eventIds => fun i =>
    if i ∈ eventIds then { db i with status := .RESOLVED } else db i
  | _ => db

/-- Cumulative effect of a trace of actions on the database. -/
def runTrace (db : ℕ → DbRecord) (trace : List Action) : ℕ → DbRecord :=
  trace.foldl applyAction db

/-- Row filter shared by the two `DatabaseClient.findMany` queries:
`autoResolve: true`, `pythFeedId`, `triggerPrice` and `operator` non-null. -/
def eligibleRow (e : Event) : Bool :=
  e.autoResolve && e.pythFeedId.isSome && e.triggerPrice.isSome && e.operator.isSome

/-- `DatabaseClient.getActiveAutoResolutionEvents`: `OPEN`, eligible,
`end_time > now`. -/
def getActiveAutoResolutionEvents (db : ℕ → DbRecord) (rows : List Event) (now : ℤ) :
    List Event :=
  rows.filter (fun e =>
    decide ((db e.id).status = .OPEN) && eligibleRow e && decide (now < e.end_time))

/-- `DatabaseClient.getExpiredAutoResolutionEvents`: `OPEN`, eligible,
`end_time < now`, limited to a batch of 50. -/
def getExpiredAutoResolutionEvents (db : ℕ → DbRecord) (rows : List Event) (now : ℤ) :
    List Event :=
  (rows.filter (fun e =>
    decide ((db e.id).status = .OPEN) && eligibleRow e && decide (e.end_time < now))).take 50

/-- `PriceMonitor.resolveEventViaContract`: invoked with the event, the
outcome and the selected key index while the event id is held in
`processingEvents`.  On success it performs the contract call, marks the
event resolved with the winning token id and the transaction hash,
notifies the matching engine, and removes the id from `processingEvents`;
`contractOk = false` models a transient failure of the external contract
interaction, in which case the catch block removes the id from
`processingEvents` and rethrows without writing to the database.  Returns
the new guard set, the interaction trace and whether the call
succeeded. -/
def resolveEventViaContract (processing : Finset ℕ) (eventId : ℕ) (outcome : Outcome)
    (keyIndex : ℕ) (contractOk : Bool) : Finset ℕ × List Action × Bool :=
  if contractOk then
    (processing.erase eventId,
      [.resolverInvoke eventId outcome keyIndex,
       .markResolving eventId (winningTokenIdFor eventId outcome),
       .markResolvedWithHash eventId,
       .notifyMatchingEngine eventId],
      true)
  else
    (processing.erase eventId, [.resolverInvoke eventId outcome keyIndex], false)

/-- Result of one iteration of the per-event loop of
`handlePriceUpdate`: the updated monitor state and the external
interactions performed. -/
structure StreamStepResult where
  state : MonitorState
  trace : List Action
deriving DecidableEq

/-- The shared body of the expiry branch and the condition-met branch of
`handlePriceUpdate`: add the id to `processingEvents`, mark the event
`RESOLVING` with the tentative winning token (`markOk` abstracts whether
`dbClient.resolveEventWithOutcome` succeeds; a failed update writes
nothing), pick the next key index, call `resolveEventViaContract`, and on
success remove the event from monitoring; the catch block removes the id
from `processingEvents` on any failure. -/
def resolveBranch (s : MonitorState) (feedId : String) (e : Event) (outcome : Outcome)
    (markOk contractOk connectOk : Bool) : StreamStepResult :=
  let processing1 := insert e.id s.processingEvents
  if markOk then
    let winningTokenId := winningTokenIdFor e.id outcome
    let key := getNextKeyIndex s.currentKeyIndex s.numClients
    let call := resolveEventViaContract processing1 e.id outcome key.1 contractOk
    if call.2.2 then
      removeEventFromMonitoring
        { s with processingEvents := call.1, currentKeyIndex := key.2 }
        feedId e.id connectOk
      |> fun s1 => { state := s1, trace := .markResolving e.id winningTokenId :: call.2.1 }
    else
      { state := { s with processingEvents := call.1.erase e.id, currentKeyIndex := key.2 },
        trace := .markResolving e.id winningTokenId :: call.2.1 }
  else
    { state := { s with processingEvents := processing1.erase e.id }, trace := [] }

/-- The per-event loop body of `handlePriceUpdate` (lines 271-351 of the
container `PriceMonitor`): classify the event and run the matching
branch — expired events resolve with outcome `NO`, met conditions with
outcome `YES`, everything else is skipped without side effects. -/
def processOneEvent (s : MonitorState) (feedId : String) (adjustedPrice : ℚ) (now : ℤ)
    (e : Event) (markOk contractOk connectOk : Bool) : StreamStepResult :=
  match classifyEvent s.processingEvents e adjustedPrice now with
  | .expiredResolve => resolveBranch s feedId e .NO markOk contractOk connectOk
  | .conditionResolve => resolveBranch s feedId e .YES markOk contractOk connectOk
  | _ => { state := s, trace := [] }

/-- Result of one iteration of the per-event loop of the safety-net sweep
(`checkExpiredEvents`): the updated guard set and cursor, the external
interactions, and whether an exception escaped to the per-feed catch
(which aborts the rest of that feed's batch). -/
structure SweepStepResult where
  processing : Finset ℕ
  currentKeyIndex : ℕ
  trace : List Action
  aborted : Bool
deriving DecidableEq

/-- The per-event body of `checkExpiredEvents` when price data is
available (lines 188-209): skip ids already in `processingEvents`,
otherwise add the id, mark the event `RESOLVING` with the `NO` winning
token, pick the next key and call `resolveEventViaContract` with outcome
`NO`.  The surrounding try/catch is per feed, not per event, and contains
no guard cleanup: when `resolveEventWithOutcome` throws the id stays in
`processingEvents` and the rest of the feed batch is aborted; when the
contract call fails, `resolveEventViaContract` itself removes the id
before rethrowing. -/
def sweepProcessOneEvent (processing : Finset ℕ) (currentKeyIndex numClients : ℕ)
    (e : Event) (markOk contractOk : Bool) : SweepStepResult :=
  if e.id ∈ processing then
    { processing := processing, currentKeyIndex := currentKeyIndex,
      trace := [], aborted := false }
  else
    let processing1 := insert e.id processing
    if markOk then
      let key := getNextKeyIndex currentKeyIndex numClients
      let call := resolveEventViaContract processing1 e.id .NO key.1 contractOk
      { processing := call.1, currentKeyIndex := key.2,
        trace := .markResolving e.id (e.id * 2 + 1) :: call.2.1,
        aborted := !call.2.2 }
    else
      { processing := processing1, currentKeyIndex := currentKeyIndex,
        trace := [], aborted := true }

/-- The per-feed body of `checkExpiredEvents` (lines 181-219): when
`getLatestPrice` returned price data, every event of the feed group runs
through `sweepProcessOneEvent` until an exception aborts the batch; when
it returned null, all events of the group are passed to
`dbClient.resolveEvents` in a single transaction, with no guard claim and
no contract call. -/
def sweepFeedGroup (numClients : ℕ) (markOk contractOk : ℕ → Bool)
    (processing : Finset ℕ) (currentKeyIndex : ℕ) (events : List Event)
    (latestPriceAvailable : Bool) : Finset ℕ × ℕ × List Action :=
  if latestPriceAvailable then
    let r := events.foldl
      (fun (acc : Finset ℕ × ℕ × List Action × Bool) e =>
        if acc.2.2.2 then acc
        else
          let st := sweepProcessOneEvent acc.1 acc.2.1 numClients e
            (markOk e.id) (contractOk e.id)
          (st.processing, st.currentKeyIndex, acc.2.2.1 ++ st.trace, st.aborted))
      (processing, currentKeyIndex, [], false)
    (r.1, r.2.1, r.2.2.1)
  else
    (processing, currentKeyIndex, [.batchResolve (events.map Event.id)])

/-- Abstract guard world for the in-flight invariant: the shared
`processingEvents` set, the multiset of entity ids with a resolution
pipeline currently executing, and how often the Resolver has been invoked
per entity. -/
structure GuardWorld where
  processing : Finset ℕ
  inFlight : Multiset ℕ
  resolverCalls : ℕ → ℕ

/-- The atomic trigger prefix shared by both dispatch paths (lines
277-286/325 of `handlePriceUpdate` and 190-196 of `checkExpiredEvents`):
the membership test on `processingEvents` and the subsequent `add` run
synchronously, with no await between them, so a trigger either skips (the
id is present) or atomically claims the id, starts a pipeline and leads
to exactly one Resolver invocation. -/
def triggerStep (w : GuardWorld) (id : ℕ) : GuardWorld :=
  if id ∈ w.processing then w
  else
    { processing := insert id w.processing,
      inFlight := id ::ₘ w.inFlight,
      resolverCalls := fun i => if i = id then w.resolverCalls i + 1 else w.resolverCalls i }

/-- Completion of a pipeline for an entity: `processingEvents.delete` at
the end of `resolveEventViaContract` (on success or failure), ending the
in-flight interval. -/
def completeStep (w : GuardWorld) (id : ℕ) : GuardWorld :=
  { processing := w.processing.erase id,
    inFlight := w.inFlight.erase id,
    resolverCalls := w.resolverCalls }

/-- Interleaved guard operations issued by the streaming and sweeper
paths. -/
inductive GuardOp where
  | trigger (id : ℕ)
  | complete (id : ℕ)

/-- Apply one guard operation. -/
def applyGuardOp (w : GuardWorld) : GuardOp → GuardWorld
  | .trigger id => triggerStep w id
  | .complete id => completeStep w id

/-- In-flight invariant: at most one pipeline per entity is executing, and
every executing pipeline holds its `processingEvents` claim. -/
def GuardInv (w : GuardWorld) : Prop :=
  (∀ id, w.inFlight.count id ≤ 1) ∧ ∀ id ∈ w.inFlight, id ∈ w.processing

/-- The sequence of key indices returned by `n` consecutive
`getNextKeyIndex` calls starting from a given cursor. -/
def consecutiveKeyIndices (currentKeyIndex numClients : ℕ) : ℕ → List ℕ
  | 0 => []
  | n + 1 =>
    let r := getNextKeyIndex currentKeyIndex numClients
    r.1 :: consecutiveKeyIndices r.2 numClients n

/-- Whether an action is an invocation of the external Resolver. -/
def isResolverInvoke : Action → Bool
  | .resolverInvoke _ _ _ => true
  | _ => false

/-- Whether an action is a `resolveEventWithOutcome` (mark-resolving)
database write. -/
def isMarkResolving : Action → Bool
  | .markResolving _ _ => true
  | _ => false

theorem foldl_insert_eq_union (a : Finset String) (l : List String) :
    l.foldl (fun acc i => insert i acc) a = a ∪ l.toFinset := by
  induction l generalizing a with
  | nil => simp
  | cons x xs ih =>
    rw [List.foldl_cons, ih]
    ext y
    simp [or_comm, or_left_comm]

theorem handleConnectionError_activePriceIds (p : PythState) :
    (handleConnectionError p).1.activePriceIds = p.activePriceIds := by
  unfold handleConnectionError
  split
  · rfl
  · split <;> rfl

theorem subscribeToPriceFeeds_activePriceIds (p : PythState) (ids : List String)
    (connectOk : Bool) :
    (subscribeToPriceFeeds p ids connectOk).1.activePriceIds =
      p.activePriceIds ∪ ids.toFinset := by
  rw [← foldl_insert_eq_union]
  dsimp only [subscribeToPriceFeeds]
  split_ifs with h1 h2
  · rfl
  · rfl
  · rw [handleConnectionError_activePriceIds]

theorem mapGet_cons (a : String × List Event) (rest : List (String × List Event))
    (k : String) :
    mapGet (a :: rest) k = if a.1 = k then some a.2 else mapGet rest k := by
  simp only [mapGet, List.find?_cons]
  by_cases hk : a.1 = k
  · simp [hk]
  · simp [hk]

theorem mapDelete_cons (a : String × List Event) (rest : List (String × List Event))
    (k : String) :
    mapDelete (a :: rest) k =
      if a.1 = k then mapDelete rest k else a :: mapDelete rest k := by
  simp only [mapDelete, List.filter_cons]
  by_cases hk : a.1 = k <;> simp [hk]

theorem mapGet_map_update_ne (m : List (String × List Event)) (k k' : String)
    (v : List Event) (h : k' ≠ k) :
    mapGet (m.map (fun p => if p.1 = k then (k, v) else p)) k' = mapGet m k' := by
  induction m with
  | nil => rfl
  | cons a rest ih =>
    rw [List.map_cons, mapGet_cons a rest k']
    by_cases hk : a.1 = k
    · rw [if_pos hk, mapGet_cons (k, v) _ k', if_neg (fun hh => h hh.symm),
        if_neg (by rw [hk]; exact fun hh => h hh.symm)]
      exact ih
    · rw [if_neg hk, mapGet_cons a _ k']
      by_cases hk' : a.1 = k'
      · rw [if_pos hk', if_pos hk']
      · rw [if_neg hk', if_neg hk']
        exact ih

theorem mapGet_append_single_ne (m : List (String × List Event)) (k k' : String)
    (v : List Event) (h : k' ≠ k) :
    mapGet (m ++ [(k, v)]) k' = mapGet m k' := by
  induction m with
  | nil =>
    rw [List.nil_append, mapGet_cons (k, v) [] k', if_neg (fun hh => h hh.symm)]
  | cons a rest ih =>
    rw [List.cons_append, mapGet_cons a _ k', mapGet_cons a rest k']
    by_cases hk' : a.1 = k'
    · rw [if_pos hk', if_pos hk']
    · rw [if_neg hk', if_neg hk']
      exact ih

theorem mapGet_mapSet_ne (m : List (String × List Event)) (k k' : String)
    (v : List Event) (h : k' ≠ k) :
    mapGet (mapSet m k v) k' = mapGet m k' := by
  rw [mapSet]
  split
  · exact mapGet_map_update_ne m k k' v h
  · exact mapGet_append_single_ne m k k' v h

theorem mapGet_mapSet_self (m : List (String × List Event)) (k : String)
    (v : List Event) (h : (mapGet m k).isSome) :
    mapGet (mapSet m k v) k = some v := by
  have hany : m.any (fun p => decide (p.1 = k)) = true := by
    induction m with
    | nil => simp [mapGet] at h
    | cons a rest ih =>
      by_cases hk : a.1 = k
      · simp [List.any_cons, hk]
      · rw [mapGet_cons a rest k, if_neg hk] at h
        simp [List.any_cons, hk, ih h]
  rw [mapSet, if_pos hany]
  clear h
  induction m with
  | nil => simp at hany
  | cons a rest ih =>
    rw [List.map_cons]
    by_cases hk : a.1 = k
    · rw [if_pos hk, mapGet_cons (k, v) _ k, if_pos rfl]
    · simp only [List.any_cons, decide_eq_true_eq, hk, false_or] at hany
      rw [if_neg hk, mapGet_cons a _ k, if_neg hk]
      exact ih hany

theorem mapGet_mapDelete_self (m : List (String × List Event)) (k : String) :
    mapGet (mapDelete m k) k = none := by
  induction m with
  | nil => rfl
  | cons a rest ih =>
    rw [mapDelete_cons a rest k]
    by_cases hk : a.1 = k
    · rw [if_pos hk]
      exact ih
    · rw [if_neg hk, mapGet_cons a _ k, if_neg hk]
      exact ih

theorem mapGet_mapDelete_ne (m : List (String × List Event)) (k k' : String)
    (h : k' ≠ k) : mapGet (mapDelete m k) k' = mapGet m k' := by
  induction m with
  | nil => rfl
  | cons a rest ih =>
    rw [mapDelete_cons a rest k, mapGet_cons a rest k']
    by_cases hk : a.1 = k
    · rw [if_pos hk, if_neg (by rw [hk]; exact fun hh => h hh.symm)]
      exact ih
    · rw [if_neg hk, mapGet_cons a _ k']
      by_cases hk' : a.1 = k'
      · rw [if_pos hk', if_pos hk']
      · rw [if_neg hk', if_neg hk']
        exact ih

theorem guardInv_triggerStep (w : GuardWorld) (id : ℕ) (hw : GuardInv w) :
    GuardInv (triggerStep w id) := by
  rw [triggerStep]
  by_cases hmem : id ∈ w.processing
  · rw [if_pos hmem]; exact hw
  · rw [if_neg hmem]
    have hnot : id ∉ w.inFlight := fun hin => hmem (hw.2 id hin)
    constructor
    · intro j
      by_cases hj : j = id
      · subst hj
        simp only [Multiset.count_cons_self]
        have : w.inFlight.count j = 0 := Multiset.count_eq_zero.2 hnot
        omega
      · simp only [Multiset.count_cons_of_ne hj]
        exact hw.1 j
    · intro j hj
      rcases Multiset.mem_cons.1 hj with hj | hj
      · subst hj; exact Finset.mem_insert_self _ _
      · exact Finset.mem_insert_of_mem (hw.2 j hj)

theorem guardInv_completeStep (w : GuardWorld) (id : ℕ) (hw : GuardInv w) :
    GuardInv (completeStep w id) := by
  constructor
  · intro j
    calc (completeStep w id).inFlight.count j ≤ w.inFlight.count j := by
          rw [completeStep]
          exact Multiset.count_le_of_le j (Multiset.erase_le id w.inFlight)
      _ ≤ 1 := hw.1 j
  · intro j hj
    rw [completeStep] at hj ⊢
    have hjmem : j ∈ w.inFlight := Multiset.mem_of_mem_erase hj
    rw [Finset.mem_erase]
    refine ⟨?_, hw.2 j hjmem⟩
    intro hji
    subst hji
    have h2 : 2 ≤ w.inFlight.count j := by
      have := Multiset.count_erase_self j w.inFlight
      have hpos : 0 < (w.inFlight.erase j).count j := Multiset.count_pos.2 hj
      omega
    have := hw.1 j
    omega

theorem guardInv_applyGuardOp (w : GuardWorld) (op : GuardOp) (hw : GuardInv w) :
    GuardInv (applyGuardOp w op) := by
  cases op with
  | trigger id => exact guardInv_triggerStep w id hw
  | complete id => exact guardInv_completeStep w id hw

theorem guardInv_foldl (ops : List GuardOp) (w : GuardWorld) (hw : GuardInv w) :
    GuardInv (ops.foldl applyGuardOp w) := by
  induction ops generalizing w with
  | nil => exact hw
  | cons op rest ih => exact ih (applyGuardOp w op) (guardInv_applyGuardOp w op hw)

theorem consecutiveKeyIndices_formula (numClients : ℕ) (hN : 0 < numClients) :
    ∀ (n cursor : ℕ), cursor < numClients →
      consecutiveKeyIndices cursor numClients n =
        (List.range n).map (fun i => (cursor + i) % numClients) := by
  intro n
  induction n with
  | zero => intro cursor _; rfl
  | succ m ih =>
    intro cursor hc
    rw [consecutiveKeyIndices, List.range_succ_eq_map, List.map_cons]
    dsimp only [getNextKeyIndex]
    rw [ih ((cursor + 1) % numClients) (Nat.mod_lt _ hN)]
    congr 1
    · rw [Nat.add_zero, Nat.mod_eq_of_lt hc]
    · rw [List.map_map]
      apply List.map_congr_left
      intro i _
      simp only [Function.comp_apply, Nat.mod_add_mod]
      congr 1
      omega

theorem consecutiveKeyIndices_nodup (numClients cursor : ℕ) (hN : 0 < numClients)
    (hc : cursor < numClients) :
    (consecutiveKeyIndices cursor numClients numClients).Nodup := by
  rw [consecutiveKeyIndices_formula numClients hN numClients cursor hc]
  apply List.Nodup.map_on _ (List.nodup_range numClients)
  intro i hi j hj hij
  rw [List.mem_range] at hi hj
  have h1 : (cursor + i) % numClients = (cursor + j) % numClients := hij
  have := Nat.ModEq.add_left_cancel' cursor h1
  have hmod : i % numClients = j % numClients := this
  rwa [Nat.mod_eq_of_lt hi, Nat.mod_eq_of_lt hj] at hmod

theorem consecutiveKeyIndices_mem (numClients cursor : ℕ) (hN : 0 < numClients)
    (hc : cursor < numClients) (i : ℕ) (hi : i < numClients) :
    i ∈ consecutiveKeyIndices cursor numClients numClients := by
  rw [consecutiveKeyIndices_formula numClients hN numClients cursor hc]
  rw [List.mem_map]
  refine ⟨(i + numClients - cursor) % numClients, ?_, ?_⟩
  · rw [List.mem_range]
    exact Nat.mod_lt _ hN
  · rw [Nat.add_mod_mod]
    have heq : cursor + (i + numClients - cursor) = i + numClients := by omega
    rw [heq, Nat.add_mod_right, Nat.mod_eq_of_lt hi]

/-- C2: for a non-expired monitored entity, the evaluator fires the
threshold outcome iff the inclusive comparison holds: `GT` fires iff
`adjustedPrice >= triggerPrice`, `LT` fires iff
`adjustedPrice <= triggerPrice`, equality fires under both operators, and
when the condition does not hold the price sample is a no-op for that
entity. -/
theorem c2_threshold_inclusive
    (s : MonitorState) (feedId : String) (e : Event) (adjusted triggerPrice : ℚ)
    (op : ComparisonOperator) (now : ℤ)
    (hTrig : e.triggerPrice = some triggerPrice) (hOp : e.operator = some op)
    (hGuard : e.id ∉ s.processingEvents) (hLive : now < e.end_time) :
    (∀ p t : ℚ, conditionMet .GT p t = true ↔ t ≤ p) ∧
    (∀ p t : ℚ, conditionMet .LT p t = true ↔ p ≤ t) ∧
    (∀ p : ℚ, conditionMet .GT p p = true ∧ conditionMet .LT p p = true) ∧
    (classifyEvent s.processingEvents e adjusted now = .conditionResolve ↔
      conditionMet op adjusted triggerPrice = true) ∧
    (conditionMet op adjusted triggerPrice = false →
      ∀ markOk contractOk connectOk,
        processOneEvent s feedId adjusted now e markOk contractOk connectOk =
          { state := s, trace := [] }) := by
  refine ⟨?_, ?_, ?_, ?_, ?_⟩
  · intro p t; simp [conditionMet]
  · intro p t; simp [conditionMet]
  · intro p; simp [conditionMet]
  · simp only [classifyEvent, hTrig, hOp, if_neg hGuard, if_neg (not_le.2 hLive)]
    constructor
    · intro h
      by_cases hc : conditionMet op adjusted triggerPrice
      · exact hc
      · simp [hc] at h
    · intro hc; simp [hc]
  · intro hc markOk contractOk connectOk
    simp [processOneEvent, classifyEvent, hTrig, hOp, if_neg hGuard,
      if_neg (not_le.2 hLive), hc]

/-- Witness for C2 at a concrete entity (id 1, `GT`, threshold 5, expiry
100) and sample (price 6 at time 50). -/
theorem c2_threshold_inclusive_witness :
    (∀ p t : ℚ, conditionMet .GT p t = true ↔ t ≤ p) ∧
    (∀ p t : ℚ, conditionMet .LT p t = true ↔ p ≤ t) ∧
    (∀ p : ℚ, conditionMet .GT p p = true ∧ conditionMet .LT p p = true) ∧
    (classifyEvent (⟨[], ∅, 0, 1, ⟨∅, false, 0⟩⟩ : MonitorState).processingEvents
        ⟨1, some "f", some 5, some .GT, 100, true⟩ 6 50 =
        .conditionResolve ↔ conditionMet .GT 6 5 = true) ∧
    (conditionMet .GT 6 5 = false →
      ∀ markOk contractOk connectOk,
        processOneEvent ⟨[], ∅, 0, 1, ⟨∅, false, 0⟩⟩ "f" 6 50
            ⟨1, some "f", some 5, some .GT, 100, true⟩ markOk contractOk connectOk =
          { state := ⟨[], ∅, 0, 1, ⟨∅, false, 0⟩⟩, trace := [] }) :=
  c2_threshold_inclusive ⟨[], ∅, 0, 1, ⟨∅, false, 0⟩⟩ "f"
    ⟨1, some "f", some 5, some .GT, 100, true⟩ 6 5 .GT 50 rfl rfl
    (by decide) (by decide)

/-- C3: during price-sample dispatch, an entity whose `end_time` has
passed is classified as expired for every sample price — even one whose
price condition holds — so the expiry branch (outcome `NO`) runs and the
threshold comparison is short-circuited; the resulting pipeline marks the
`NO` winning token and invokes the Resolver with outcome `NO`. -/
theorem c3_expiry_precedes_threshold
    (s : MonitorState) (feedId : String) (e : Event) (triggerPrice : ℚ)
    (op : ComparisonOperator) (now : ℤ)
    (hTrig : e.triggerPrice = some triggerPrice) (hOp : e.operator = some op)
    (hGuard : e.id ∉ s.processingEvents) (hExp : e.end_time ≤ now) :
    (∀ adjusted : ℚ, classifyEvent s.processingEvents e adjusted now = .expiredResolve) ∧
    (∀ adjusted : ℚ, conditionMet op adjusted triggerPrice = true →
      classifyEvent s.processingEvents e adjusted now = .expiredResolve) ∧
    (∀ (adjusted : ℚ) (markOk contractOk connectOk : Bool),
      processOneEvent s feedId adjusted now e markOk contractOk connectOk =
        resolveBranch s feedId e .NO markOk contractOk connectOk) ∧
    (∀ (adjusted : ℚ) (contractOk connectOk : Bool),
      (processOneEvent s feedId adjusted now e true contractOk connectOk).trace.take 2 =
        [.markResolving e.id (e.id * 2 + 1),
         .resolverInvoke e.id .NO s.currentKeyIndex]) := by
  have hclass : ∀ adjusted : ℚ,
      classifyEvent s.processingEvents e adjusted now = .expiredResolve := by
    intro adjusted
    simp [classifyEvent, hTrig, hOp, if_neg hGuard, hExp]
  have hbranch : ∀ (adjusted : ℚ) (markOk contractOk connectOk : Bool),
      processOneEvent s feedId adjusted now e markOk contractOk connectOk =
        resolveBranch s feedId e .NO markOk contractOk connectOk := by
    intro adjusted markOk contractOk connectOk
    simp [processOneEvent, hclass adjusted]
  refine ⟨hclass, fun adjusted _ => hclass adjusted, hbranch, ?_⟩
  intro adjusted contractOk connectOk
  rw [hbranch adjusted true contractOk connectOk]
  cases contractOk <;>
    simp [resolveBranch, resolveEventViaContract, getNextKeyIndex, winningTokenIdFor]

/-- Witness for C3 at a concrete expired entity (id 1, expiry 40, sample
time 50) whose price condition simultaneously holds. -/
theorem c3_expiry_precedes_threshold_witness :
    (∀ adjusted : ℚ,
      classifyEvent (⟨[], ∅, 0, 1, ⟨∅, false, 0⟩⟩ : MonitorState).processingEvents
        ⟨1, some "f", some 5, some .GT, 40, true⟩ adjusted 50 = .expiredResolve) ∧
    (∀ adjusted : ℚ, conditionMet .GT adjusted 5 = true →
      classifyEvent (⟨[], ∅, 0, 1, ⟨∅, false, 0⟩⟩ : MonitorState).processingEvents
        ⟨1, some "f", some 5, some .GT, 40, true⟩ adjusted 50 = .expiredResolve) ∧
    (∀ (adjusted : ℚ) (markOk contractOk connectOk : Bool),
      processOneEvent ⟨[], ∅, 0, 1, ⟨∅, false, 0⟩⟩ "f" adjusted 50
          ⟨1, some "f", some 5, some .GT, 40, true⟩ markOk contractOk connectOk =
        resolveBranch ⟨[], ∅, 0, 1, ⟨∅, false, 0⟩⟩ "f"
          ⟨1, some "f", some 5, some .GT, 40, true⟩ .NO markOk contractOk connectOk) ∧
    (∀ (adjusted : ℚ) (contractOk connectOk : Bool),
      (processOneEvent ⟨[], ∅, 0, 1, ⟨∅, false, 0⟩⟩ "f" adjusted 50
          ⟨1, some "f", some 5, some .GT, 40, true⟩ true contractOk connectOk).trace.take 2 =
        [.markResolving 1 (1 * 2 + 1), .resolverInvoke 1 .NO 0]) :=
  c3_expiry_precedes_threshold ⟨[], ∅, 0, 1, ⟨∅, false, 0⟩⟩ "f"
    ⟨1, some "f", some 5, some .GT, 40, true⟩ 5 .GT 50 rfl rfl
    (by decide) (by decide)

theorem triggerStep_of_mem (w : GuardWorld) (id : ℕ) (h : id ∈ w.processing) :
    triggerStep w id = w := by
  rw [triggerStep, if_pos h]

theorem mem_processing_triggerStep (w : GuardWorld) (id : ℕ) :
    id ∈ (triggerStep w id).processing := by
  rw [triggerStep]
  split
  · assumption
  · exact Finset.mem_insert_self _ _

/-- C1: the in-flight guard admits at most one resolution pipeline per
entity.  A streaming dispatch and a sweep iteration whose entity id is
already in `processingEvents` are both no-ops performing no external
interaction; the guard invariant (at most one pipeline in flight per id,
each holding its claim) is preserved by every interleaving of trigger and
completion steps; and of two concurrent triggers for the same unclaimed
id the second is the identity, so exactly one Resolver call results. -/
theorem c1_at_most_one_inflight
    (s : MonitorState) (feedId : String) (adjusted : ℚ) (now : ℤ) (e : Event)
    (markOk contractOk connectOk : Bool)
    (processing : Finset ℕ) (cursor numClients : ℕ)
    (w : GuardWorld) (id : ℕ)
    (hw : GuardInv w) (hid : id ∉ w.processing)
    (hin : e.id ∈ s.processingEvents) (hin2 : e.id ∈ processing) :
    (processOneEvent s feedId adjusted now e markOk contractOk connectOk =
      { state := s, trace := [] }) ∧
    (sweepProcessOneEvent processing cursor numClients e markOk contractOk =
      { processing := processing, currentKeyIndex := cursor,
        trace := [], aborted := false }) ∧
    (∀ ops : List GuardOp, GuardInv (ops.foldl applyGuardOp w)) ∧
    triggerStep (triggerStep w id) id = triggerStep w id ∧
    (triggerStep (triggerStep w id) id).resolverCalls id = w.resolverCalls id + 1 ∧
    (triggerStep (triggerStep w id) id).inFlight.count id = 1 := by
  have hsecond : triggerStep (triggerStep w id) id = triggerStep w id :=
    triggerStep_of_mem _ id (mem_processing_triggerStep w id)
  have hflight : id ∉ w.inFlight := fun hmem => hid (hw.2 id hmem)
  refine ⟨?_, ?_, fun ops => guardInv_foldl ops w hw, hsecond, ?_, ?_⟩
  · cases htp : e.triggerPrice <;> cases hop : e.operator <;>
      simp [processOneEvent, classifyEvent, htp, hop, hin]
  · rw [sweepProcessOneEvent, if_pos hin2]
  · rw [hsecond, triggerStep, if_neg hid]
    simp
  · rw [hsecond, triggerStep, if_neg hid]
    simp only [Multiset.count_cons_self]
    rw [Multiset.count_eq_zero.2 hflight]
/-- Witness for C1 at a concrete entity (id 1) already claimed by the
guard, and a fresh guard world. -/
theorem c1_at_most_one_inflight_witness :
    (processOneEvent ⟨[], {1}, 0, 1, ⟨∅, false, 0⟩⟩ "f" 6 50
        ⟨1, some "f", some 5, some .GT, 100, true⟩ true true true =
      { state := ⟨[], {1}, 0, 1, ⟨∅, false, 0⟩⟩, trace := [] }) ∧
    (sweepProcessOneEvent {1} 0 1 ⟨1, some "f", some 5, some .GT, 100, true⟩ true true =
      { processing := {1}, currentKeyIndex := 0, trace := [], aborted := false }) ∧
    (∀ ops : List GuardOp,
      GuardInv (ops.foldl applyGuardOp ⟨∅, 0, fun _ => 0⟩)) ∧
    triggerStep (triggerStep ⟨∅, 0, fun _ => 0⟩ 1) 1 =
      triggerStep ⟨∅, 0, fun _ => 0⟩ 1 ∧
    (triggerStep (triggerStep ⟨∅, 0, fun _ => 0⟩ 1) 1).resolverCalls 1 =
      (⟨∅, 0, fun _ => 0⟩ : GuardWorld).resolverCalls 1 + 1 ∧
    (triggerStep (triggerStep ⟨∅, 0, fun _ => 0⟩ 1) 1).inFlight.count 1 = 1 :=
  c1_at_most_one_inflight ⟨[], {1}, 0, 1, ⟨∅, false, 0⟩⟩ "f" 6 50
    ⟨1, some "f", some 5, some .GT, 100, true⟩ true true true {1} 0 1
    ⟨∅, 0, fun _ => 0⟩ 1
    ⟨fun i => by simp, fun i h => by simp at h⟩
    (by simp) (by decide) (by decide)

/-- C4: whenever the streaming dispatch fires (the expiry branch or the
condition-met branch), the pipeline is `resolveBranch`, whose interaction
trace begins with the `RESOLVING` store write immediately followed by the
Resolver invocation; and when that store write throws, the pipeline
performs no external interaction at all — in particular it never invokes
the Resolver — and the guard claim is released. -/
theorem c4_mark_resolving_before_resolver
    (s : MonitorState) (feedId : String) (adjusted : ℚ) (now : ℤ) (e : Event)
    (hFire : classifyEvent s.processingEvents e adjusted now = .expiredResolve ∨
      classifyEvent s.processingEvents e adjusted now = .conditionResolve) :
    (∃ outcome : Outcome, ∀ markOk contractOk connectOk : Bool,
      processOneEvent s feedId adjusted now e markOk contractOk connectOk =
        resolveBranch s feedId e outcome markOk contractOk connectOk) ∧
    (∀ (outcome : Outcome) (contractOk connectOk : Bool),
      (resolveBranch s feedId e outcome true contractOk connectOk).trace.take 2 =
        [.markResolving e.id (winningTokenIdFor e.id outcome),
         .resolverInvoke e.id outcome s.currentKeyIndex]) ∧
    (∀ (outcome : Outcome) (contractOk connectOk : Bool),
      (resolveBranch s feedId e outcome false contractOk connectOk).trace = [] ∧
      e.id ∉
        (resolveBranch s feedId e outcome false contractOk
            connectOk).state.processingEvents) := by
  refine ⟨?_, ?_, ?_⟩
  · rcases hFire with h | h
    · exact ⟨.NO, fun mo co ko => by simp [processOneEvent, h]⟩
    · exact ⟨.YES, fun mo co ko => by simp [processOneEvent, h]⟩
  · intro outcome contractOk connectOk
    cases contractOk <;> simp [resolveBranch, resolveEventViaContract, getNextKeyIndex]
  · intro outcome contractOk connectOk
    exact ⟨by simp [resolveBranch], by simp [resolveBranch]⟩

/-- Witness for C4 at a concrete fired entity (id 1, expired at 40,
dispatched at 50). -/
theorem c4_mark_resolving_before_resolver_witness :
    (∃ outcome : Outcome, ∀ markOk contractOk connectOk : Bool,
      processOneEvent ⟨[], ∅, 0, 1, ⟨∅, false, 0⟩⟩ "f" 6 50
          ⟨1, some "f", some 5, some .GT, 40, true⟩ markOk contractOk connectOk =
        resolveBranch ⟨[], ∅, 0, 1, ⟨∅, false, 0⟩⟩ "f"
          ⟨1, some "f", some 5, some .GT, 40, true⟩ outcome markOk contractOk connectOk) ∧
    (∀ (outcome : Outcome) (contractOk connectOk : Bool),
      (resolveBranch ⟨[], ∅, 0, 1, ⟨∅, false, 0⟩⟩ "f"
          ⟨1, some "f", some 5, some .GT, 40, true⟩ outcome true contractOk
          connectOk).trace.take 2 =
        [.markResolving 1 (winningTokenIdFor 1 outcome),
         .resolverInvoke 1 outcome 0]) ∧
    (∀ (outcome : Outcome) (contractOk connectOk : Bool),
      (resolveBranch ⟨[], ∅, 0, 1, ⟨∅, false, 0⟩⟩ "f"
          ⟨1, some "f", some 5, some .GT, 40, true⟩ outcome false contractOk
          connectOk).trace = [] ∧
      (1 : ℕ) ∉
        (resolveBranch ⟨[], ∅, 0, 1, ⟨∅, false, 0⟩⟩ "f"
            ⟨1, some "f", some 5, some .GT, 40, true⟩ outcome false contractOk
            connectOk).state.processingEvents) :=
  c4_mark_resolving_before_resolver ⟨[], ∅, 0, 1, ⟨∅, false, 0⟩⟩ "f" 6 50
    ⟨1, some "f", some 5, some .GT, 40, true⟩ (Or.inl (by decide))

/-- Counterexample to C5 as stated: on the concrete entity with id 1,
after the Resolver call fails with a transient error the persisted status
is `RESOLVING`, not `OPEN` — the code has no rollback write, so the
entity state is not reverted to `Open`. -/
theorem c5_counterexample_not_reverted_to_open :
    (runTrace (fun _ => ⟨.OPEN, none, false⟩)
        (resolveBranch ⟨[("f", [⟨1, some "f", some 5, some .GT, 100, true⟩])], ∅, 0, 1,
            ⟨{"f"}, true, 0⟩⟩ "f" ⟨1, some "f", some 5, some .GT, 100, true⟩
          .YES true false true).trace 1).status = .RESOLVING ∧
    ¬(runTrace (fun _ => ⟨.OPEN, none, false⟩)
        (resolveBranch ⟨[("f", [⟨1, some "f", some 5, some .GT, 100, true⟩])], ∅, 0, 1,
            ⟨{"f"}, true, 0⟩⟩ "f" ⟨1, some "f", some 5, some .GT, 100, true⟩
          .YES true false true).trace 1).status = .OPEN := by
  constructor
  · rfl
  · intro h
    exact absurd h (by decide)

/-- C5 (amended): after a transient Resolver failure the guard claim is
released and the entity stays in the in-memory watch registry and the
subscription set, so the next matching price sample can re-trigger the
pipeline; the Resolver invocation is on the trace (the failure is logged
and rethrown, not silently dropped); but the persisted state remains
`RESOLVING` with the tentative winning token — it is not reverted to
`OPEN` — so the refresh and sweeper queries, which select only `OPEN`
rows, no longer return the entity. -/
theorem c5_resolver_failure_guard_released
    (s : MonitorState) (feedId : String) (e : Event) (outcome : Outcome)
    (connectOk : Bool) (db : ℕ → DbRecord) :
    ((resolveBranch s feedId e outcome true false connectOk).trace =
      [.markResolving e.id (winningTokenIdFor e.id outcome),
       .resolverInvoke e.id outcome s.currentKeyIndex]) ∧
    (e.id ∉
      (resolveBranch s feedId e outcome true false connectOk).state.processingEvents) ∧
    ((resolveBranch s feedId e outcome true false connectOk).state.monitoringEvents =
      s.monitoringEvents) ∧
    ((resolveBranch s feedId e outcome true false connectOk).state.pyth = s.pyth) ∧
    (runTrace db (resolveBranch s feedId e outcome true false connectOk).trace e.id =
      ⟨.RESOLVING, some (winningTokenIdFor e.id outcome), (db e.id).resolutionHash⟩) ∧
    (∀ (rows : List Event) (now : ℤ),
      e ∉ getExpiredAutoResolutionEvents
          (runTrace db (resolveBranch s feedId e outcome true false connectOk).trace)
          rows now ∧
      e ∉ getActiveAutoResolutionEvents
          (runTrace db (resolveBranch s feedId e outcome true false connectOk).trace)
          rows now) := by
  have htrace : (resolveBranch s feedId e outcome true false connectOk).trace =
      [.markResolving e.id (winningTokenIdFor e.id outcome),
       .resolverInvoke e.id outcome s.currentKeyIndex] := by
    simp [resolveBranch, resolveEventViaContract, getNextKeyIndex]
  have hdb : runTrace db (resolveBranch s feedId e outcome true false connectOk).trace
      e.id =
      ⟨.RESOLVING, some (winningTokenIdFor e.id outcome), (db e.id).resolutionHash⟩ := by
    rw [htrace]
    simp [runTrace, applyAction]
  refine ⟨htrace, ?_, ?_, ?_, hdb, ?_⟩
  · simp [resolveBranch, resolveEventViaContract]
  · simp [resolveBranch, resolveEventViaContract]
  · simp [resolveBranch, resolveEventViaContract]
  · intro rows now
    have hstat : (runTrace db
        (resolveBranch s feedId e outcome true false connectOk).trace e.id).status =
        .RESOLVING := by rw [hdb]
    constructor
    · intro hmem
      have h2 := List.take_subset 50 _ hmem
      rw [List.mem_filter] at h2
      have h3 := h2.2
      simp only [Bool.and_eq_true, decide_eq_true_eq] at h3
      rw [hstat] at h3
      exact absurd h3.1.1 (by decide)
    · intro hmem
      rw [getActiveAutoResolutionEvents, List.mem_filter] at hmem
      have h3 := hmem.2
      simp only [Bool.and_eq_true, decide_eq_true_eq] at h3
      rw [hstat] at h3
      exact absurd h3.1.1 (by decide)

/-- C6: `getNextKeyIndex` returns the current cursor and advances it
modulo the pool size; starting from any valid cursor, `N` consecutive
calls over a pool of `N` clients return each slot index `0..N-1` exactly
once, in the fixed deterministic order `(cursor + i) % N`, with no slot
skipped or duplicated within one generation pass. -/
theorem c6_round_robin (numClients cursor : ℕ) (hN : 0 < numClients)
    (hc : cursor < numClients) :
    (∀ c : ℕ, getNextKeyIndex c numClients = (c, (c + 1) % numClients)) ∧
    consecutiveKeyIndices cursor numClients numClients =
      (List.range numClients).map (fun i => (cursor + i) % numClients) ∧
    (consecutiveKeyIndices cursor numClients numClients).Nodup ∧
    (∀ i : ℕ, i < numClients →
      i ∈ consecutiveKeyIndices cursor numClients numClients) ∧
    (consecutiveKeyIndices cursor numClients numClients).length = numClients := by
  refine ⟨fun c => rfl,
    consecutiveKeyIndices_formula numClients hN numClients cursor hc,
    consecutiveKeyIndices_nodup numClients cursor hN hc,
    fun i hi => consecutiveKeyIndices_mem numClients cursor hN hc i hi, ?_⟩
  rw [consecutiveKeyIndices_formula numClients hN numClients cursor hc]
  simp

/-- Witness for C6 on a pool of 3 clients starting at cursor 1. -/
theorem c6_round_robin_witness :
    (∀ c : ℕ, getNextKeyIndex c 3 = (c, (c + 1) % 3)) ∧
    consecutiveKeyIndices 1 3 3 = (List.range 3).map (fun i => (1 + i) % 3) ∧
    (consecutiveKeyIndices 1 3 3).Nodup ∧
    (∀ i : ℕ, i < 3 → i ∈ consecutiveKeyIndices 1 3 3) ∧
    (consecutiveKeyIndices 1 3 3).length = 3 :=
  c6_round_robin 3 1 (by decide) (by decide)

/-- C7: reconnection uses exponential backoff with base 5000 ms — when
`k` consecutive failures have been recorded, the next failure below the
cap schedules reconnect attempt `k + 1` after `5000 * 2 ^ k` ms and
records it; the cap is 10 attempts, a failure at the cap emits the
terminal `connectionFailed` event instead of retrying, and a successful
(re)subscription resets the counter to 0. -/
theorem c7_reconnect_backoff (active : Finset String) (connectionOpen : Bool) (k : ℕ)
    (p : PythState) (priceIds : List String)
    (hne : active ≠ ∅) (hids : priceIds ≠ []) :
    reconnectInterval = 5000 ∧
    maxReconnectAttempts = 10 ∧
    (k < maxReconnectAttempts →
      handleConnectionError ⟨active, connectionOpen, k⟩ =
        (⟨active, connectionOpen, k + 1⟩,
         some (.scheduleRetry (reconnectInterval * 2 ^ k)))) ∧
    (maxReconnectAttempts ≤ k →
      handleConnectionError ⟨active, connectionOpen, k⟩ =
        (⟨active, connectionOpen, k⟩, some .emitConnectionFailed)) ∧
    (subscribeToPriceFeeds p priceIds true).1.reconnectAttempts = 0 := by
  refine ⟨rfl, rfl, ?_, ?_, ?_⟩
  · intro hk
    simp [handleConnectionError, hne, hk]
  · intro hk
    simp [handleConnectionError, hne, not_lt.2 hk]
  · have hunion : p.activePriceIds ∪ priceIds.toFinset ≠ ∅ := by
      cases priceIds with
      | nil => exact absurd rfl hids
      | cons x xs =>
        exact Finset.ne_empty_of_mem
          (Finset.mem_union_right _ (by simp : x ∈ (x :: xs).toFinset))
    dsimp only [subscribeToPriceFeeds]
    rw [foldl_insert_eq_union, if_neg hunion, if_pos rfl]
/-- Witness for C7 at counter 3 with one tracked feed, and a successful
subscription from attempt counter 7. -/
theorem c7_reconnect_backoff_witness :
    reconnectInterval = 5000 ∧
    maxReconnectAttempts = 10 ∧
    (3 < maxReconnectAttempts →
      handleConnectionError ⟨{"a"}, true, 3⟩ =
        (⟨{"a"}, true, 3 + 1⟩,
         some (.scheduleRetry (reconnectInterval * 2 ^ 3)))) ∧
    (maxReconnectAttempts ≤ 3 →
      handleConnectionError ⟨{"a"}, true, 3⟩ =
        (⟨{"a"}, true, 3⟩, some .emitConnectionFailed)) ∧
    (subscribeToPriceFeeds ⟨∅, false, 7⟩ ["a"] true).1.reconnectAttempts = 0 :=
  c7_reconnect_backoff {"a"} true 3 ⟨∅, false, 7⟩ ["a"] (by decide) (by decide)

/-- Counterexample to C8 as stated: with feed key "a" subscribed before
the refresh and a snapshot containing only an entity on feed key "b", the
key "a" is still subscribed after the refresh even though no entity of
the rebuilt registry references it — `subscribeToPriceFeeds` only adds to
`activePriceIds`, it never removes stale keys. -/
theorem c8_counterexample_stale_key_persists :
    "a" ∈ (refreshEvents ⟨[], ∅, 0, 1, ⟨{"a"}, true, 0⟩⟩
        [⟨1, some "b", some 5, some .GT, 100, true⟩] true).pyth.activePriceIds ∧
    "a" ∉ ((groupEventsByFeed [⟨1, some "b", some 5, some .GT, 100, true⟩]).map
        Prod.fst).toFinset := by
  constructor <;> decide

/-- C8 (amended): after a registry refresh the subscription set equals
the union of the previous `activePriceIds` and the distinct feed keys of
the rebuilt registry — every required key is subscribed, but a feed key
whose entities have all disappeared from the snapshot remains subscribed
until an explicit unsubscribe or close. -/
theorem c8_subscriptions_accumulate (s : MonitorState) (events : List Event)
    (connectOk : Bool) :
    (refreshEvents s events connectOk).monitoringEvents = groupEventsByFeed events ∧
    (refreshEvents s events connectOk).pyth.activePriceIds =
      s.pyth.activePriceIds ∪ ((groupEventsByFeed events).map Prod.fst).toFinset ∧
    ((groupEventsByFeed events).map Prod.fst).toFinset ⊆
      (refreshEvents s events connectOk).pyth.activePriceIds := by
  have hact : (refreshEvents s events connectOk).pyth.activePriceIds =
      s.pyth.activePriceIds ∪ ((groupEventsByFeed events).map Prod.fst).toFinset :=
    subscribeToPriceFeeds_activePriceIds s.pyth
      ((groupEventsByFeed events).map Prod.fst) connectOk
  refine ⟨rfl, hact, ?_⟩
  rw [hact]
  exact Finset.subset_union_right

theorem unsubscribe_activePriceIds (p : PythState) (k : String) (connectOk : Bool) :
    (unsubscribe p k connectOk).1.activePriceIds = p.activePriceIds.erase k := by
  dsimp only [unsubscribe]
  split_ifs with h1 h2
  · rw [subscribeToPriceFeeds_activePriceIds, Finset.sort_toFinset,
      Finset.union_self]
  · rfl
  · rfl

theorem unsubscribe_connection_closed (p : PythState) (k : String) (connectOk : Bool)
    (h : p.activePriceIds.erase k = ∅) :
    (unsubscribe p k connectOk).1.connectionOpen = false := by
  cases hco : p.connectionOpen <;> simp [unsubscribe, h, hco]

/-- C9: removing one entity from the watch registry filters exactly the
entries with that id out of its feed's bucket and leaves every other
feed's bucket unchanged; when the bucket becomes empty the feed key is
deleted and `unsubscribe` is issued for it, which removes the key from
`activePriceIds`; and when no subscribed key remains after the
unsubscribe, the transport connection is closed. -/
theorem c9_remove_one_entity
    (s : MonitorState) (feedId : String) (eventId : ℕ) (connectOk : Bool)
    (bucket : List Event)
    (hm : mapGet s.monitoringEvents feedId = some bucket) :
    (∀ x : Event, x ∈ bucket.filter (fun e => decide (e.id ≠ eventId)) ↔
      x ∈ bucket ∧ x.id ≠ eventId) ∧
    (∀ k : String, k ≠ feedId →
      mapGet (removeEventFromMonitoring s feedId eventId connectOk).monitoringEvents
        k = mapGet s.monitoringEvents k) ∧
    (0 < (bucket.filter (fun e => decide (e.id ≠ eventId))).length →
      mapGet (removeEventFromMonitoring s feedId eventId connectOk).monitoringEvents
          feedId = some (bucket.filter (fun e => decide (e.id ≠ eventId))) ∧
      (removeEventFromMonitoring s feedId eventId connectOk).pyth = s.pyth) ∧
    ((bucket.filter (fun e => decide (e.id ≠ eventId))).length = 0 →
      mapGet (removeEventFromMonitoring s feedId eventId connectOk).monitoringEvents
          feedId = none ∧
      (removeEventFromMonitoring s feedId eventId connectOk).pyth =
        (unsubscribe s.pyth feedId connectOk).1) ∧
    (∀ (p : PythState) (co : Bool),
      (unsubscribe p feedId co).1.activePriceIds = p.activePriceIds.erase feedId) ∧
    (∀ (p : PythState) (co : Bool), p.activePriceIds.erase feedId = ∅ →
      (unsubscribe p feedId co).1.connectionOpen = false) := by
  have hsome : (mapGet s.monitoringEvents feedId).isSome := by rw [hm]; rfl
  refine ⟨?_, ?_, ?_, ?_,
    fun p co => unsubscribe_activePriceIds p feedId co,
    fun p co h => unsubscribe_connection_closed p feedId co h⟩
  · intro x
    simp [List.mem_filter]
  · intro k hk
    simp only [removeEventFromMonitoring, hm]
    split
    · exact mapGet_mapSet_ne _ _ _ _ hk
    · exact mapGet_mapDelete_ne _ _ _ hk
  · intro hlen
    simp only [removeEventFromMonitoring, hm, if_pos hlen]
    exact ⟨mapGet_mapSet_self _ _ _ hsome, trivial⟩
  · intro hlen
    have hneg : ¬0 < (bucket.filter (fun e => decide (e.id ≠ eventId))).length := by
      omega
    simp only [removeEventFromMonitoring, hm, if_neg hneg]
    exact ⟨mapGet_mapDelete_self _ _, trivial⟩
/-- Witness for C9: removing entity 1, the only entity of feed "f". -/
theorem c9_remove_one_entity_witness :
    (∀ x : Event,
      x ∈ ([⟨1, some "f", some 5, some .GT, 100, true⟩] : List Event).filter
          (fun e => decide (e.id ≠ 1)) ↔
      x ∈ ([⟨1, some "f", some 5, some .GT, 100, true⟩] : List Event) ∧ x.id ≠ 1) ∧
    (∀ k : String, k ≠ "f" →
      mapGet (removeEventFromMonitoring
          ⟨[("f", [⟨1, some "f", some 5, some .GT, 100, true⟩])], ∅, 0, 1,
            ⟨{"f"}, true, 0⟩⟩ "f" 1 true).monitoringEvents k =
        mapGet [("f", [⟨1, some "f", some 5, some .GT, 100, true⟩])] k) ∧
    (0 < (([⟨1, some "f", some 5, some .GT, 100, true⟩] : List Event).filter
        (fun e => decide (e.id ≠ 1))).length →
      mapGet (removeEventFromMonitoring
          ⟨[("f", [⟨1, some "f", some 5, some .GT, 100, true⟩])], ∅, 0, 1,
            ⟨{"f"}, true, 0⟩⟩ "f" 1 true).monitoringEvents "f" =
        some (([⟨1, some "f", some 5, some .GT, 100, true⟩] : List Event).filter
          (fun e => decide (e.id ≠ 1))) ∧
      (removeEventFromMonitoring
          ⟨[("f", [⟨1, some "f", some 5, some .GT, 100, true⟩])], ∅, 0, 1,
            ⟨{"f"}, true, 0⟩⟩ "f" 1 true).pyth = ⟨{"f"}, true, 0⟩) ∧
    ((([⟨1, some "f", some 5, some .GT, 100, true⟩] : List Event).filter
        (fun e => decide (e.id ≠ 1))).length = 0 →
      mapGet (removeEventFromMonitoring
          ⟨[("f", [⟨1, some "f", some 5, some .GT, 100, true⟩])], ∅, 0, 1,
            ⟨{"f"}, true, 0⟩⟩ "f" 1 true).monitoringEvents "f" = none ∧
      (removeEventFromMonitoring
          ⟨[("f", [⟨1, some "f", some 5, some .GT, 100, true⟩])], ∅, 0, 1,
            ⟨{"f"}, true, 0⟩⟩ "f" 1 true).pyth =
        (unsubscribe ⟨{"f"}, true, 0⟩ "f" true).1) ∧
    (∀ (p : PythState) (co : Bool),
      (unsubscribe p "f" co).1.activePriceIds = p.activePriceIds.erase "f") ∧
    (∀ (p : PythState) (co : Bool), p.activePriceIds.erase "f" = ∅ →
      (unsubscribe p "f" co).1.connectionOpen = false) :=
  c9_remove_one_entity
    ⟨[("f", [⟨1, some "f", some 5, some .GT, 100, true⟩])], ∅, 0, 1, ⟨{"f"}, true, 0⟩⟩
    "f" 1 true [⟨1, some "f", some 5, some .GT, 100, true⟩] rfl

/-- C10: in the safety-net sweep, when the latest-price lookup for a feed
returns no price data, the whole feed batch is resolved by a single
`resolveEvents` transaction: the guard set and the key cursor are
untouched, the only interaction is one `batchResolve` carrying the
batch's ids — no Resolver invocation and no `RESOLVING` mark — and each
listed event's record moves straight to `RESOLVED` with its
`winningTokenId` left unset, while all other records are untouched. -/
theorem c10_sweep_without_price_data
    (numClients : ℕ) (markOk contractOk : ℕ → Bool)
    (processing : Finset ℕ) (cursor : ℕ) (events : List Event) :
    sweepFeedGroup numClients markOk contractOk processing cursor events false =
      (processing, cursor, [.batchResolve (events.map Event.id)]) ∧
    (∀ a ∈ (sweepFeedGroup numClients markOk contractOk processing cursor events
        false).2.2, isResolverInvoke a = false ∧ isMarkResolving a = false) ∧
    (∀ (db : ℕ → DbRecord) (i : ℕ), i ∈ events.map Event.id →
      runTrace db (sweepFeedGroup numClients markOk contractOk processing cursor
          events false).2.2 i =
        { status := .RESOLVED, winningTokenId := (db i).winningTokenId,
          resolutionHash := (db i).resolutionHash }) ∧
    (∀ (db : ℕ → DbRecord) (i : ℕ), i ∉ events.map Event.id →
      runTrace db (sweepFeedGroup numClients markOk contractOk processing cursor
          events false).2.2 i = db i) := by
  have htr : (sweepFeedGroup numClients markOk contractOk processing cursor events
      false).2.2 = [.batchResolve (events.map Event.id)] := rfl
  refine ⟨rfl, ?_, ?_, ?_⟩
  · intro a ha
    rw [htr] at ha
    have : a = Action.batchResolve (events.map Event.id) := by simpa using ha
    subst this
    exact ⟨rfl, rfl⟩
  · intro db i hmem
    rw [htr]
    simp only [runTrace, List.foldl_cons, List.foldl_nil, applyAction]
    rw [if_pos hmem]
  · intro db i hmem
    rw [htr]
    simp only [runTrace, List.foldl_cons, List.foldl_nil, applyAction]
    rw [if_neg hmem]

end MarketChecker
